import Mathlib

set_option maxRecDepth 8000

/-!
# Verification of the streaming candlestick window synchronizer

Shallow embedding of the window-synchronizer core of `chart.py`
(`fetch_klines`, `ChartPanel.__init__` / `load_initial_data` /
`start_websocket` / `stop` / `on_message`) together with the
`collections.deque(maxlen=60)` buffer it operates on.

Candle prices and volumes are only ever carried around by this code
(decoded, stored, replaced), never computed with, so they are embedded
as integers; `open_time` is a millisecond epoch, embedded as `Nat`.
-/

namespace Chart

/-- One OHLCV candle, as the tuple
`(open_time, open, high, low, close, volume)` built at `chart.py:44-51`
and `chart.py:150-157`. -/
structure Candle where
  open_time : Nat
  o : Int
  h : Int
  l : Int
  c : Int
  v : Int
deriving DecidableEq, Repr

/-- A candle whose price/volume fields are all zero; used for concrete
test windows where only `open_time` matters. -/
def candleAt (t : Nat) : Candle :=
  ⟨t, 0, 0, 0, 0, 0⟩

/-- `collections.deque` append with `maxlen = N` (`self.data.append(...)`,
`chart.py:162`): appending to a full deque first discards elements on the
left so that the result has at most `N` elements. -/
def dequeAppend (N : Nat) (xs : List Candle) (k : Candle) : List Candle :=
  if xs.length < N then xs ++ [k] else xs.drop (xs.length + 1 - N) ++ [k]

/-- `collections.deque.extend` with `maxlen = N`
(`self.data.extend(klines)`, `chart.py:113`): append each element in
order. -/
def dequeExtend (N : Nat) (xs : List Candle) (ks : List Candle) : List Candle :=
  ks.foldl (dequeAppend N) xs

/-- The merge step of `ChartPanel.on_message`, `chart.py:159-162`:

    if self.data and kline['t'] == self.data[-1][0]:
        self.data[-1] = new_candle
    else:
        self.data.append(new_candle)

If the window is non-empty and the incoming open time equals the last
element's, the last element is replaced in place; otherwise the candle
is appended (with deque eviction).  There is no further case: in
particular an out-of-order candle (`open_time` below the last) takes
the `else` branch and is appended. -/
def mergeStep (N : Nat) (xs : List Candle) (k : Candle) : List Candle :=
  if xs.getLast?.map Candle.open_time = some k.open_time then
    xs.dropLast ++ [k]
  else
    dequeAppend N xs k

/-- The mutable state of a `ChartPanel` (`chart.py:68-70`): the
`is_active` flag, the current websocket connection (modelled by an
`Option Nat` holding the connection's generation number, `None` when
`self.ws = None`), the candle deque `self.data`, and the number of
`draw_chart` notifications scheduled so far via `self.master.after`
(modelling the "window changed" signal). -/
structure PanelState where
  is_active : Bool
  ws : Option Nat
  data : List Candle
  notifs : Nat
deriving DecidableEq, Repr

/-- The state of a freshly constructed panel (`chart.py:68-70`):
inactive, no websocket, empty deque with `maxlen=60`. -/
def initPanel : PanelState :=
  ⟨false, none, [], 0⟩

/-- `ChartPanel.stop` (`chart.py:136-141`): clear `is_active`, then close
and drop the websocket if there is one.  Closing is a transport-side
effect; on the panel state it leaves `ws = none` whether or not a
connection was open. -/
def stop (s : PanelState) : PanelState :=
  { s with is_active := false, ws := none }

/-- `ChartPanel.start_websocket` (`chart.py:119-134`): no-op when already
active; otherwise set `is_active` and open a fresh connection.  The
parameter `newWs` is the runtime identity (generation) of the new
connection. -/
def start_websocket (s : PanelState) (newWs : Nat) : PanelState :=
  if s.is_active then s
  else { s with is_active := true, ws := some newWs }

/-- `ChartPanel.on_message` (`chart.py:143-164`): drop the message when
inactive, otherwise apply the merge step to the decoded candle and
schedule one `draw_chart` call.  The parameter `ws` is the identity of
the connection that delivered the message; as in the source, the body
never consults it. -/
def on_message (s : PanelState) (ws : Nat) (k : Candle) : PanelState :=
  if s.is_active then
    { s with data := mergeStep 60 s.data k, notifs := s.notifs + 1 }
  else s

/-- The body of `run_fetch` in `ChartPanel.load_initial_data`
(`chart.py:110-115`) after the fetch returned `klines`: when `klines` is
non-empty, extend the deque, schedule one `draw_chart` and schedule
`start_websocket`; when it is empty, do nothing at all.  The returned
`Bool` records whether `start_websocket` was scheduled. -/
def load_initial_data (s : PanelState) (klines : List Candle) : PanelState × Bool :=
  if klines = [] then (s, false)
  else ({ s with data := dequeExtend 60 s.data klines, notifs := s.notifs + 1 }, true)

/-- One raw kline row of the REST response, with its numeric fields
already read (`candle[0]`, `float(candle[1])`, ..., `chart.py:44-51`).
A row or payload on which any of these accesses fails is covered by
`KlinesPayload.malformed`. -/
structure RawRow where
  t : Nat
  o : Int
  h : Int
  l : Int
  c : Int
  v : Int
deriving DecidableEq, Repr

/-- The decoded body of an HTTP response: either `response.json()` (or
the row formatting) fails, or it yields a list of rows. -/
inductive KlinesPayload where
  | malformed : KlinesPayload
  | rows : List RawRow → KlinesPayload
deriving DecidableEq, Repr

/-- What the HTTP layer hands to `fetch_klines`: either `requests.get`
raises (network error / timeout), or a response with a status code and a
body arrives. -/
inductive HttpOutcome where
  | netError : HttpOutcome
  | response : Nat → KlinesPayload → HttpOutcome
deriving DecidableEq, Repr

/-- Possible outcomes of the historical fetch.  The two failure
constructors are the error taxonomy of the specification
(`TransportError`, `DecodeError`); they are needed to even state how
fetch fails.  The source's `fetch_klines` wraps its whole body in
`try/except Exception` and returns `[]` from the handler
(`chart.py:53-55`), so the embedding below never produces them. -/
inductive FetchResult where
  | ok : List Candle → FetchResult
  | transportError : FetchResult
  | decodeError : FetchResult
deriving DecidableEq, Repr

/-- Formatting of one raw row into a candle tuple (`chart.py:44-51`). -/
def formatRow (r : RawRow) : Candle :=
  ⟨r.t, r.o, r.h, r.l, r.c, r.v⟩

/-- `fetch_klines` (`chart.py:28-55`): perform the GET, call
`raise_for_status()` (`requests` raises `HTTPError` exactly when
`400 ≤ status < 600`; any other status, including those `≥ 600`,
passes), decode the JSON body, and format each row.  Every exception
along the way is caught by the blanket `except Exception` handler,
which logs and returns the empty list. -/
def fetch_klines (outcome : HttpOutcome) : FetchResult :=
  match outcome with
  | .netError => .ok []
  | .response status body =>
    if 400 ≤ status ∧ status < 600 then .ok []
    else
      match body with
      | .malformed => .ok []
      | .rows rs => .ok (rs.map formatRow)

/-- Strict ascending order of `open_time` across adjacent elements
(invariant I2 / property P2 of the specification). -/
abbrev StrictChain (xs : List Candle) : Prop :=
  List.Chain' (fun a b => a.open_time < b.open_time) xs

/-- The window states reachable in the source: a seed by
`load_initial_data` from a non-empty snapshot (ascending by the fetch
contract of §4.1/§6 of the specification; the websocket is only started
when the snapshot is non-empty), followed by any number of
`on_message` merge steps. -/
inductive ReachableWindow : List Candle → Prop where
  | seed (klines : List Candle) (hne : klines ≠ []) (hasc : StrictChain klines) :
      ReachableWindow (dequeExtend 60 [] klines)
  | step (w : List Candle) (k : Candle) (hw : ReachableWindow w) :
      ReachableWindow (mergeStep 60 w k)

/-- Executable check of strict ascending `open_time` order, used to
evaluate `StrictChain` on concrete windows. -/
def isAscending : List Candle → Bool
  | [] => true
  | [_] => true
  | a :: b :: t => decide (a.open_time < b.open_time) && isAscending (b :: t)

/-- A full ascending snapshot of 60 candles at open times `1, ..., 60`. -/
def klines60 : List Candle :=
  (List.range 60).map (fun i => candleAt (i + 1))

/-- Live observations that fill the window to capacity while leaving an
out-of-order candle (`open_time = 50`) in its interior: one stale candle
followed by 58 ascending ones. -/
def outOfOrderObs : List Candle :=
  candleAt 50 :: (List.range 58).map (fun i => candleAt (101 + i))

/-- The window obtained by seeding with the single candle at `100` and
then merging `outOfOrderObs`: sixty elements whose front is the candle
at `100` while the candle at `50` sits in second position. -/
def fullDisordered : List Candle :=
  outOfOrderObs.foldl (mergeStep 60) (dequeExtend 60 [] [candleAt 100])

/-! ## General lemmas about the deque and the merge step -/

/-- `isAscending` decides `StrictChain`. -/
theorem isAscending_iff (xs : List Candle) :
    isAscending xs = true ↔ List.Chain' (fun a b => a.open_time < b.open_time) xs := by
  match xs with
  | [] => simp [isAscending]
  | [a] => simp [isAscending]
  | a :: b :: t =>
    rw [isAscending]
    rw [Bool.and_eq_true, decide_eq_true_iff]
    rw [List.chain'_cons]
    rw [isAscending_iff (b :: t)]

/-- A deque append is an ordinary append followed by dropping the excess
from the left. -/
theorem dequeAppend_eq_drop (N : Nat) (xs : List Candle) (k : Candle) (hN : 0 < N) :
    dequeAppend N xs k =
      (xs ++ [k]).drop (if xs.length < N then 0 else xs.length + 1 - N) := by
  unfold dequeAppend
  by_cases h : xs.length < N
  · simp [h]
  · rw [if_neg h, if_neg h, List.drop_append_of_le_length (by omega)]

/-- Length after a deque append: grows by one below capacity, stays at
`N` at capacity. -/
theorem length_dequeAppend (N : Nat) (xs : List Candle) (k : Candle) (hN : 0 < N) :
    (dequeAppend N xs k).length = if xs.length < N then xs.length + 1 else N := by
  unfold dequeAppend
  by_cases h : xs.length < N
  · simp [h]
  · rw [if_neg h, if_neg h]
    simp only [List.length_append, List.length_drop]
    simp
    omega

/-- The merge step in the replace case (`chart.py:159-160`). -/
theorem mergeStep_replace (N : Nat) {xs : List Candle} {k : Candle}
    (h : xs.getLast?.map Candle.open_time = some k.open_time) :
    mergeStep N xs k = xs.dropLast ++ [k] := by
  unfold mergeStep
  rw [if_pos h]

/-- The merge step in the append case (`chart.py:161-162`). -/
theorem mergeStep_append (N : Nat) {xs : List Candle} {k : Candle}
    (h : xs.getLast?.map Candle.open_time ≠ some k.open_time) :
    mergeStep N xs k = dequeAppend N xs k := by
  unfold mergeStep
  rw [if_neg h]

/-- The merge step never grows the window beyond capacity. -/
theorem length_mergeStep_le (N : Nat) (xs : List Candle) (k : Candle)
    (hN : 0 < N) (hxs : xs.length ≤ N) : (mergeStep N xs k).length ≤ N := by
  by_cases h : xs.getLast?.map Candle.open_time = some k.open_time
  · rw [mergeStep_replace N h]
    obtain ⟨l0, hl0, -⟩ := Option.map_eq_some'.mp h
    have hne : xs ≠ [] := by
      intro he
      subst he
      simp at hl0
    have hpos : 0 < xs.length := List.length_pos.mpr hne
    simp only [List.length_append, List.length_dropLast]
    simp
    omega
  · rw [mergeStep_append N h, length_dequeAppend N xs k hN]
    split <;> omega

/-- Extending a deque never grows it beyond capacity. -/
theorem length_dequeExtend_le (N : Nat) (ks : List Candle) (hN : 0 < N) :
    ∀ xs : List Candle, xs.length ≤ N → (dequeExtend N xs ks).length ≤ N := by
  induction ks with
  | nil =>
    intro xs h
    simpa [dequeExtend] using h
  | cons k ks ih =>
    intro xs h
    have hk : (dequeAppend N xs k).length ≤ N := by
      rw [length_dequeAppend N xs k hN]
      split <;> omega
    simpa [dequeExtend] using ih (dequeAppend N xs k) hk

/-- Below capacity, extending a deque is ordinary concatenation; in
particular seeding the empty deque with at most `N` candles keeps them
all, in order. -/
theorem dequeExtend_eq_append (N : Nat) (ks : List Candle) :
    ∀ xs : List Candle, xs.length + ks.length ≤ N → dequeExtend N xs ks = xs ++ ks := by
  induction ks with
  | nil =>
    intro xs h
    simp [dequeExtend]
  | cons k ks ih =>
    intro xs h
    simp only [List.length_cons] at h
    have h1 : xs.length < N := by omega
    have h2 : dequeAppend N xs k = xs ++ [k] := by
      unfold dequeAppend
      rw [if_pos h1]
    have h3 : dequeExtend N xs (k :: ks) = dequeExtend N (dequeAppend N xs k) ks := by
      simp [dequeExtend]
    rw [h3, h2, ih (xs ++ [k]) (by simp; omega)]
    simp

/-- The merge step preserves strict `open_time` order whenever the
incoming candle is not older than the current last element. -/
theorem mergeStep_chain (w : List Candle) (k : Candle)
    (hw : List.Chain' (fun a b => a.open_time < b.open_time) w)
    (hk : ∀ l ∈ w.getLast?, l.open_time ≤ k.open_time) :
    List.Chain' (fun a b => a.open_time < b.open_time) (mergeStep 60 w k) := by
  by_cases h : w.getLast?.map Candle.open_time = some k.open_time
  · rw [mergeStep_replace 60 h]
    obtain ⟨l0, hl0, hlt⟩ := Option.map_eq_some'.mp h
    have hsplit : w.dropLast ++ [l0] = w := List.dropLast_append_getLast? l0 hl0
    rw [← hsplit] at hw
    rw [List.chain'_append] at hw ⊢
    refine ⟨hw.1, List.chain'_singleton _, ?_⟩
    intro x hx y hy
    simp at hy
    subst hy
    have hxl : x.open_time < l0.open_time := hw.2.2 x hx l0 (by simp)
    omega
  · rw [mergeStep_append 60 h, dequeAppend_eq_drop 60 w k (by omega)]
    apply List.Chain'.drop
    rw [List.chain'_append]
    refine ⟨hw, List.chain'_singleton _, ?_⟩
    intro x hx y hy
    simp at hy
    subst hy
    have hle : x.open_time ≤ k.open_time := hk x hx
    have hmap : w.getLast?.map Candle.open_time = some x.open_time := by
      rw [Option.mem_def] at hx
      rw [hx]
      rfl
    have hne : x.open_time ≠ k.open_time := by
      intro he
      exact h (by rw [hmap, he])
    omega

/-- Reachable windows respect the capacity bound. -/
theorem reachable_length_le (w : List Candle) (hw : ReachableWindow w) : w.length ≤ 60 := by
  induction hw with
  | seed klines hne hasc => exact length_dequeExtend_le 60 klines (by omega) [] (by simp)
  | step w k hw ih => exact length_mergeStep_le 60 w k (by omega) ih

/-- Folding a batch of merge steps over a reachable window stays
reachable. -/
theorem reachable_foldl (obs : List Candle) :
    ∀ w : List Candle, ReachableWindow w → ReachableWindow (obs.foldl (mergeStep 60) w) := by
  induction obs with
  | nil =>
    intro w hw
    simpa using hw
  | cons k obs ih =>
    intro w hw
    simpa using ih (mergeStep 60 w k) (ReachableWindow.step w k hw)

/-- Dropping the first element and dropping the last element commute. -/
theorem dropLast_drop_one (l : List Candle) : (l.dropLast).drop 1 = (l.drop 1).dropLast := by
  match l with
  | [] => rfl
  | [a] => rfl
  | a :: b :: t => simp

/-! ## C1 — stale observations -/

/-- C1, counterexample: on the window `[100, 200, 300]` the observation
with `open_time = 250` is strictly older than the last element, yet
`on_message` does not discard it — it appends it, changing both the
window's length and its contents.  The claimed case-4 discard branch
does not exist in `chart.py:159-162`. -/
theorem c1_stale_not_discarded :
    (candleAt 250).open_time < (candleAt 300).open_time ∧
    (on_message ⟨true, some 1, [candleAt 100, candleAt 200, candleAt 300], 0⟩ 1
        (candleAt 250)).data =
      [candleAt 100, candleAt 200, candleAt 300, candleAt 250] ∧
    (on_message ⟨true, some 1, [candleAt 100, candleAt 200, candleAt 300], 0⟩ 1
        (candleAt 250)).data ≠
      [candleAt 100, candleAt 200, candleAt 300] := by
  decide

/-- C1, amended: an observation whose `open_time` is strictly less than
the last element's is not discarded: it takes the `else` branch of
`on_message` and is appended at the back (with deque eviction at the
front when full), and one redraw notification is scheduled.  No error
is raised to the caller (`on_message` is total), but the window's
length and contents do change. -/
theorem c1_stale_appended (s : PanelState) (g : Nat) (k l : Candle)
    (hact : s.is_active = true)
    (hl : s.data.getLast? = some l)
    (hstale : k.open_time < l.open_time) :
    (on_message s g k).data = dequeAppend 60 s.data k ∧
    (on_message s g k).notifs = s.notifs + 1 := by
  have hne : s.data.getLast?.map Candle.open_time ≠ some k.open_time := by
    rw [hl]
    simp
    omega
  unfold on_message
  rw [hact]
  simp [mergeStep_append 60 hne]

/-- C1, witness for the amended theorem at the window `[100, 200, 300]`
and stale observation `250`. -/
theorem c1_stale_appended_witness :
    (on_message ⟨true, some 1, [candleAt 100, candleAt 200, candleAt 300], 0⟩ 1
        (candleAt 250)).data =
      dequeAppend 60 [candleAt 100, candleAt 200, candleAt 300] (candleAt 250) ∧
    (on_message ⟨true, some 1, [candleAt 100, candleAt 200, candleAt 300], 0⟩ 1
        (candleAt 250)).notifs = 0 + 1 :=
  c1_stale_appended ⟨true, some 1, [candleAt 100, candleAt 200, candleAt 300], 0⟩ 1
    (candleAt 250) (candleAt 300) rfl (by decide) (by decide)

/-! ## C2 — strict time ordering -/

/-- C2, counterexample: the window `[100, 200, 300, 250]` is reachable
(seed `[100, 200, 300]` from an ascending snapshot, then merge the
observation `250`, which `on_message` appends), and it violates strict
adjacent ordering of `open_time`. -/
theorem c2_ordering_violated :
    ReachableWindow [candleAt 100, candleAt 200, candleAt 300, candleAt 250] ∧
    ¬ StrictChain [candleAt 100, candleAt 200, candleAt 300, candleAt 250] := by
  constructor
  · have h0 : ReachableWindow (dequeExtend 60 [] [candleAt 100, candleAt 200, candleAt 300]) :=
      ReachableWindow.seed [candleAt 100, candleAt 200, candleAt 300] (by decide)
        ((isAscending_iff _).mp (by decide))
    have h1 : dequeExtend 60 [] [candleAt 100, candleAt 200, candleAt 300] =
        [candleAt 100, candleAt 200, candleAt 300] := by decide
    have h2 := ReachableWindow.step _ (candleAt 250) (h1 ▸ h0)
    have h3 : mergeStep 60 [candleAt 100, candleAt 200, candleAt 300] (candleAt 250) =
        [candleAt 100, candleAt 200, candleAt 300, candleAt 250] := by decide
    exact h3 ▸ h2
  · exact fun h => absurd ((isAscending_iff _).mpr h) (by decide)

/-- C2, amended: strict ordering is an invariant only under monotone
delivery.  Seeding from an ascending snapshot of at most 60 candles
yields an ascending window, and a merge application preserves strict
ordering whenever the observation's `open_time` is at least the current
last element's (equal replaces in place, greater appends); an
observation with a strictly smaller `open_time` is appended and can
break the invariant. -/
theorem c2_ordering_monotone_inputs (w : List Candle) (k : Candle) (ks : List Candle)
    (hw : StrictChain w)
    (hk : ∀ l ∈ w.getLast?, l.open_time ≤ k.open_time)
    (hks : StrictChain ks) (hlen : ks.length ≤ 60) :
    StrictChain (mergeStep 60 w k) ∧ StrictChain (dequeExtend 60 [] ks) := by
  refine ⟨mergeStep_chain w k hw hk, ?_⟩
  have he : dequeExtend 60 [] ks = [] ++ ks := dequeExtend_eq_append 60 ks [] (by simpa using hlen)
  rw [List.nil_append] at he
  rw [he]
  exact hks

/-- C2, witness for the amended theorem: merging `200` onto `[100]` and
seeding with `[100, 200]` both yield ascending windows. -/
theorem c2_ordering_monotone_inputs_witness :
    StrictChain (mergeStep 60 [candleAt 100] (candleAt 200)) ∧
    StrictChain (dequeExtend 60 [] [candleAt 100, candleAt 200]) :=
  c2_ordering_monotone_inputs [candleAt 100] (candleAt 200) [candleAt 100, candleAt 200]
    ((isAscending_iff _).mp (by decide))
    (by
      intro l hl
      rw [Option.mem_def] at hl
      have h100 : ([candleAt 100] : List Candle).getLast? = some (candleAt 100) := by decide
      rw [h100] at hl
      injection hl with h
      subst h
      decide)
    ((isAscending_iff _).mp (by decide))
    (by decide)

/-! ## C3 — capacity and eviction -/

/-- C3, counterexample: a reachable full window whose front element
(`open_time = 100`) is not its oldest element (`open_time = 50` sits
behind it).  The accepted append of `159` evicts the front element
`100`, not the oldest-by-`open_time` element `50`, which survives. -/
theorem c3_evicts_front_not_oldest :
    ReachableWindow fullDisordered ∧
    fullDisordered.length = 60 ∧
    fullDisordered.getLast? = some (candleAt 158) ∧
    (candleAt 158).open_time < (candleAt 159).open_time ∧
    candleAt 50 ∈ fullDisordered ∧
    candleAt 100 ∈ fullDisordered ∧
    (candleAt 50).open_time < (candleAt 100).open_time ∧
    (mergeStep 60 fullDisordered (candleAt 159)).length = 60 ∧
    candleAt 100 ∉ mergeStep 60 fullDisordered (candleAt 159) ∧
    candleAt 50 ∈ mergeStep 60 fullDisordered (candleAt 159) := by
  refine ⟨?_, ?_⟩
  · exact reachable_foldl outOfOrderObs (dequeExtend 60 [] [candleAt 100])
      (ReachableWindow.seed [candleAt 100] (by decide) ((isAscending_iff _).mp (by decide)))
  · decide

/-- C3, amended: the window's length never exceeds 60 on any reachable
state, and once it is full every accepted append evicts exactly one
element, namely the front (first-inserted) element, leaving the length
at 60.  The front element is the oldest by `open_time` only when the
window happens to be ascending. -/
theorem c3_capacity_and_front_eviction (w : List Candle) (k : Candle)
    (hw : ReachableWindow w) :
    w.length ≤ 60 ∧
    (w.length = 60 → w.getLast?.map Candle.open_time ≠ some k.open_time →
      mergeStep 60 w k = w.drop 1 ++ [k] ∧ (mergeStep 60 w k).length = 60) := by
  refine ⟨reachable_length_le w hw, ?_⟩
  intro hfull hne
  have hstep : mergeStep 60 w k = w.drop 1 ++ [k] := by
    rw [mergeStep_append 60 hne]
    unfold dequeAppend
    rw [if_neg (by omega)]
    have h1 : w.length + 1 - 60 = 1 := by omega
    rw [h1]
  refine ⟨hstep, ?_⟩
  rw [hstep]
  simp
  omega

/-- C3, witness for the amended theorem on the full ascending seed
`klines60`. -/
theorem c3_capacity_and_front_eviction_witness :
    (dequeExtend 60 [] klines60).length ≤ 60 ∧
    ((dequeExtend 60 [] klines60).length = 60 →
      (dequeExtend 60 [] klines60).getLast?.map Candle.open_time ≠
          some (candleAt 1000).open_time →
      mergeStep 60 (dequeExtend 60 [] klines60) (candleAt 1000) =
          (dequeExtend 60 [] klines60).drop 1 ++ [candleAt 1000] ∧
        (mergeStep 60 (dequeExtend 60 [] klines60) (candleAt 1000)).length = 60) :=
  c3_capacity_and_front_eviction (dequeExtend 60 [] klines60) (candleAt 1000)
    (ReachableWindow.seed klines60 (by decide) ((isAscending_iff _).mp (by decide)))

/-! ## C4 — forming-candle replacement -/

/-- C4: when the incoming candle's `open_time` equals the last
element's, the merge replaces the last element in place, leaving the
length unchanged; a second observation with the same `open_time` again
leaves the length unchanged and the last element equal to that second
observation. -/
theorem c4_forming_candle_replace (w : List Candle) (l k k' : Candle)
    (hl : w.getLast? = some l)
    (hk : k.open_time = l.open_time)
    (hk' : k'.open_time = k.open_time) :
    mergeStep 60 w k = w.dropLast ++ [k] ∧
    (mergeStep 60 w k).length = w.length ∧
    mergeStep 60 (mergeStep 60 w k) k' = w.dropLast ++ [k'] ∧
    (mergeStep 60 (mergeStep 60 w k) k').length = w.length ∧
    (mergeStep 60 (mergeStep 60 w k) k').getLast? = some k' := by
  have hne : w ≠ [] := by
    intro he
    subst he
    simp at hl
  have hpos : 0 < w.length := List.length_pos.mpr hne
  have h1 : w.getLast?.map Candle.open_time = some k.open_time := by
    rw [hl]
    simp [hk]
  have e1 : mergeStep 60 w k = w.dropLast ++ [k] := mergeStep_replace 60 h1
  have hlen1 : (w.dropLast ++ [k]).length = w.length := by
    simp
    omega
  have h2 : (w.dropLast ++ [k]).getLast?.map Candle.open_time = some k'.open_time := by
    rw [List.getLast?_concat]
    simp [hk']
  have e2 : mergeStep 60 (w.dropLast ++ [k]) k' = w.dropLast ++ [k'] := by
    rw [mergeStep_replace 60 h2, List.dropLast_concat]
  refine ⟨e1, by rw [e1]; exact hlen1, by rw [e1]; exact e2, ?_, ?_⟩
  · rw [e1, e2]
    simp
    omega
  · rw [e1, e2, List.getLast?_concat]

/-- C4, witness: on the window `[100, 200, 300]`, two successive
observations at `open_time = 300` with different closes (`7` then `9`)
each replace the last element; the length stays 3 and the final last
element is the second observation. -/
theorem c4_forming_candle_replace_witness :
    mergeStep 60 [candleAt 100, candleAt 200, candleAt 300] ⟨300, 0, 0, 0, 7, 0⟩ =
      [candleAt 100, candleAt 200, candleAt 300].dropLast ++ [⟨300, 0, 0, 0, 7, 0⟩] ∧
    (mergeStep 60 [candleAt 100, candleAt 200, candleAt 300] ⟨300, 0, 0, 0, 7, 0⟩).length =
      [candleAt 100, candleAt 200, candleAt 300].length ∧
    mergeStep 60 (mergeStep 60 [candleAt 100, candleAt 200, candleAt 300] ⟨300, 0, 0, 0, 7, 0⟩)
        ⟨300, 0, 0, 0, 9, 0⟩ =
      [candleAt 100, candleAt 200, candleAt 300].dropLast ++ [⟨300, 0, 0, 0, 9, 0⟩] ∧
    (mergeStep 60 (mergeStep 60 [candleAt 100, candleAt 200, candleAt 300] ⟨300, 0, 0, 0, 7, 0⟩)
        ⟨300, 0, 0, 0, 9, 0⟩).length =
      [candleAt 100, candleAt 200, candleAt 300].length ∧
    (mergeStep 60 (mergeStep 60 [candleAt 100, candleAt 200, candleAt 300] ⟨300, 0, 0, 0, 7, 0⟩)
        ⟨300, 0, 0, 0, 9, 0⟩).getLast? = some ⟨300, 0, 0, 0, 9, 0⟩ :=
  c4_forming_candle_replace [candleAt 100, candleAt 200, candleAt 300] (candleAt 300)
    ⟨300, 0, 0, 0, 7, 0⟩ ⟨300, 0, 0, 0, 9, 0⟩ (by decide) (by decide) (by decide)

/-! ## C5 — generation gating -/

/-- C5, counterexample: a panel active on connection 1 with window
`[100]` is stopped, then restarted on connection 2.  A message
delivered by the pre-stop connection 1 after the restart is merged (the
window changes) instead of being rejected: `on_message` never consults
which connection delivered the message, and the code keeps no
generation counter. -/
theorem c5_stale_generation_accepted :
    (start_websocket (stop ⟨true, some 1, [candleAt 100], 1⟩) 2).is_active = true ∧
    (start_websocket (stop ⟨true, some 1, [candleAt 100], 1⟩) 2).ws = some 2 ∧
    (on_message (start_websocket (stop ⟨true, some 1, [candleAt 100], 1⟩) 2) 1
        (candleAt 200)).data ≠
      (start_websocket (stop ⟨true, some 1, [candleAt 100], 1⟩) 2).data := by
  decide

/-- C5, amended: acceptance does not depend on which connection
delivered the observation — `on_message` ignores its connection
argument entirely, so after `stop()` then `start()` a pre-stop
observation is processed exactly like a current-generation one; the
only gate is the `is_active` flag. -/
theorem c5_generation_ignored (s : PanelState) (g g' : Nat) (k : Candle) :
    on_message s g k = on_message s g' k := rfl

/-! ## C6 — stop is idempotent and immediately effective -/

/-- C6: a second `stop()` leaves the state unchanged and does not fail,
and after `stop()` no delivered observation is merged: `on_message` on
a stopped panel returns the state unchanged (no window change, no
notification), regardless of which connection delivers. -/
theorem c6_stop_idempotent_and_gating (s : PanelState) (g : Nat) (k : Candle) :
    stop (stop s) = stop s ∧ on_message (stop s) g k = stop s :=
  ⟨rfl, rfl⟩

/-! ## C7 — notification discipline -/

/-- C7, counterexample: an observation strictly older than the last
element (the specification's case 4) is processed while active and
schedules one redraw notification — not zero — because the code has no
discard branch and appends it. -/
theorem c7_stale_observation_notifies :
    (candleAt 250).open_time < (candleAt 300).open_time ∧
    (on_message ⟨true, some 1, [candleAt 100, candleAt 200, candleAt 300], 0⟩ 1
        (candleAt 250)).notifs = 1 ∧
    (on_message ⟨true, some 1, [candleAt 100, candleAt 200, candleAt 300], 0⟩ 1
        (candleAt 250)).data ≠
      [candleAt 100, candleAt 200, candleAt 300] := by
  decide

/-- C7, amended: every observation processed while the panel is active
schedules exactly one "window changed" notification — the replace and
append cases and also stale observations, which are appended rather
than discarded; an observation delivered while inactive schedules
none. -/
theorem c7_one_notification_per_processed_message (s : PanelState) (g : Nat) (k : Candle) :
    (on_message s g k).notifs = if s.is_active then s.notifs + 1 else s.notifs := by
  cases hb : s.is_active <;> simp [on_message, hb]

/-! ## C8 — fetch outcomes -/

/-- C8, counterexample: `fetch_klines` wraps its body in a blanket
`except Exception` handler and returns `[]` from it, so a network
error, a non-2xx status (404) and a malformed payload all produce the
ordinary return value `ok []` — never a `TransportError` or
`DecodeError` failure as the claim states. -/
theorem c8_errors_return_empty_not_raised :
    fetch_klines HttpOutcome.netError = FetchResult.ok [] ∧
    fetch_klines HttpOutcome.netError ≠ FetchResult.transportError ∧
    fetch_klines (HttpOutcome.response 404 (KlinesPayload.rows [])) = FetchResult.ok [] ∧
    fetch_klines (HttpOutcome.response 404 (KlinesPayload.rows [])) ≠
      FetchResult.transportError ∧
    fetch_klines (HttpOutcome.response 200 KlinesPayload.malformed) = FetchResult.ok [] ∧
    fetch_klines (HttpOutcome.response 200 KlinesPayload.malformed) ≠
      FetchResult.decodeError := by
  decide

/-- C8, amended: the fetch never fails.  Network/timeout errors, HTTP
error statuses (4xx/5xx, for which `raise_for_status` raises) and
malformed payloads are all caught and mapped to the empty list; a
well-formed payload on any non-raising status (2xx/3xx, or the odd
status `≥ 600` that `raise_for_status` lets pass) yields one candle per
row in payload order. -/
theorem c8_fetch_never_fails (outcome : HttpOutcome) (s1 s2 : Nat)
    (body : KlinesPayload) (rs : List RawRow)
    (h1 : 400 ≤ s1 ∧ s1 < 600) (h2 : s2 < 400 ∨ 600 ≤ s2) :
    (fetch_klines outcome ≠ FetchResult.transportError ∧
     fetch_klines outcome ≠ FetchResult.decodeError) ∧
    fetch_klines HttpOutcome.netError = FetchResult.ok [] ∧
    fetch_klines (HttpOutcome.response s1 body) = FetchResult.ok [] ∧
    fetch_klines (HttpOutcome.response s2 KlinesPayload.malformed) = FetchResult.ok [] ∧
    fetch_klines (HttpOutcome.response s2 (KlinesPayload.rows rs)) =
      FetchResult.ok (rs.map formatRow) := by
  have h2' : ¬ (400 ≤ s2 ∧ s2 < 600) := by omega
  have hok : ∃ cs, fetch_klines outcome = FetchResult.ok cs := by
    match outcome with
    | .netError => exact ⟨[], rfl⟩
    | .response st b =>
      by_cases h : 400 ≤ st ∧ st < 600
      · exact ⟨[], by simp [fetch_klines, h]⟩
      · match b with
        | .malformed => exact ⟨[], by simp [fetch_klines, h]⟩
        | .rows rs' => exact ⟨rs'.map formatRow, by simp [fetch_klines, h]⟩
  obtain ⟨cs, hcs⟩ := hok
  refine ⟨?_, rfl, ?_, ?_, ?_⟩
  · rw [hcs]
    exact ⟨fun h => FetchResult.noConfusion h, fun h => FetchResult.noConfusion h⟩
  · simp [fetch_klines, h1.1, h1.2]
  · simp [fetch_klines, h2']
  · simp [fetch_klines, h2']

/-- C8, witness for the amended theorem at a network error, a 500
response, and 999 responses (a status `raise_for_status` does not raise
for) with a malformed and a one-row payload — the latter returns the
parsed row. -/
theorem c8_fetch_never_fails_witness :
    (fetch_klines HttpOutcome.netError ≠ FetchResult.transportError ∧
     fetch_klines HttpOutcome.netError ≠ FetchResult.decodeError) ∧
    fetch_klines HttpOutcome.netError = FetchResult.ok [] ∧
    fetch_klines (HttpOutcome.response 500 (KlinesPayload.rows [])) = FetchResult.ok [] ∧
    fetch_klines (HttpOutcome.response 999 KlinesPayload.malformed) = FetchResult.ok [] ∧
    fetch_klines (HttpOutcome.response 999 (KlinesPayload.rows [⟨1, 2, 3, 4, 5, 6⟩])) =
      FetchResult.ok ([⟨1, 2, 3, 4, 5, 6⟩].map formatRow) :=
  c8_fetch_never_fails HttpOutcome.netError 500 999 (KlinesPayload.rows [])
    [⟨1, 2, 3, 4, 5, 6⟩] (by decide) (by decide)

/-! ## C9 — empty snapshot -/

/-- C9: a snapshot fetch yielding zero candles is a no-op: the panel
state is returned unchanged (window still empty, no notification, not
active) and the websocket consumer is not scheduled (`false`); nothing
crashes. -/
theorem c9_empty_snapshot_is_noop (s : PanelState) :
    load_initial_data s [] = (s, false) := rfl

/-! ## C10 — frame effect of one merge -/

/-- C10: on a window of at least three elements (within capacity), one
merge application touches the sequence only at its ends: it is either a
replacement of the last element, a plain append at the back, or an
append that also removes exactly the front element; in every case each
element strictly between the first and the last is still in the
window. -/
theorem c10_merge_frame_effect (w : List Candle) (k : Candle)
    (h3 : 3 ≤ w.length) (hN : w.length ≤ 60) :
    (mergeStep 60 w k = w.dropLast ++ [k] ∨
     mergeStep 60 w k = w ++ [k] ∨
     mergeStep 60 w k = w.drop 1 ++ [k]) ∧
    ∀ x ∈ (w.dropLast).drop 1, x ∈ mergeStep 60 w k := by
  by_cases h : w.getLast?.map Candle.open_time = some k.open_time
  · rw [mergeStep_replace 60 h]
    refine ⟨Or.inl rfl, ?_⟩
    intro x hx
    exact List.mem_append_left _ (List.mem_of_mem_drop hx)
  · rw [mergeStep_append 60 h]
    unfold dequeAppend
    by_cases hlen : w.length < 60
    · rw [if_pos hlen]
      refine ⟨Or.inr (Or.inl rfl), ?_⟩
      intro x hx
      exact List.mem_append_left _ ((List.dropLast_sublist w).subset (List.mem_of_mem_drop hx))
    · rw [if_neg hlen]
      have h1 : w.length + 1 - 60 = 1 := by omega
      rw [h1]
      refine ⟨Or.inr (Or.inr rfl), ?_⟩
      intro x hx
      rw [dropLast_drop_one] at hx
      exact List.mem_append_left _ ((List.dropLast_sublist _).subset hx)

/-- C10, witness on the window `[1, 2, 3]` with the later observation
`10`: the merge is a plain append and the interior element `2` is still
present. -/
theorem c10_merge_frame_effect_witness :
    (mergeStep 60 [candleAt 1, candleAt 2, candleAt 3] (candleAt 10) =
        [candleAt 1, candleAt 2, candleAt 3].dropLast ++ [candleAt 10] ∨
     mergeStep 60 [candleAt 1, candleAt 2, candleAt 3] (candleAt 10) =
        [candleAt 1, candleAt 2, candleAt 3] ++ [candleAt 10] ∨
     mergeStep 60 [candleAt 1, candleAt 2, candleAt 3] (candleAt 10) =
        [candleAt 1, candleAt 2, candleAt 3].drop 1 ++ [candleAt 10]) ∧
    ∀ x ∈ ([candleAt 1, candleAt 2, candleAt 3].dropLast).drop 1,
      x ∈ mergeStep 60 [candleAt 1, candleAt 2, candleAt 3] (candleAt 10) :=
  c10_merge_frame_effect [candleAt 1, candleAt 2, candleAt 3] (candleAt 10)
    (by decide) (by decide)

end Chart
